import Mathlib

/-!
Formal model of the mean-reversion trading bot
(source file bot_mean_reversion_production.py).

The embedding is a shallow one: every exchange-mutating call is driven by an
oracle of type `Nat → Option Order` giving, for each successive attempt of an
operation, either the confirmed order result (`some o`) or a raised transport
error (`none`).  Machine floats are modelled as exact rationals.  The pandas
NaN produced when the rolling standard deviation is zero (or the window is too
short) is modelled by `Option`: `none` stands for NaN, and every comparison
against `none` is false, exactly as IEEE comparisons against NaN are.
-/

namespace BotMeanReversion

/-- Order side, the ccxt strings buy and sell. -/
inductive Side
  | buy
  | sell
deriving DecidableEq, Repr

/-- Confirmed order result returned by the exchange: id, average fill price
and filled quantity. -/
structure Order where
  id : ℕ
  price : ℚ
  filled : ℚ
deriving DecidableEq, Repr

/-- Signed quantity contributed to the net exchange position by a successful
market order. -/
def signedQty : Side → ℚ → ℚ
  | Side.buy, q => q
  | Side.sell, q => -q

/-- Result of the retry loop in execute_order_with_retry: the returned value,
how many times the operation was invoked, and the list of back-off waits that
were slept through (in order). -/
structure RetryOutcome where
  result : Option Order
  calls : ℕ
  waits : List ℚ
deriving DecidableEq, Repr

/-- The body of the Python loop `for attempt in range(MAX_RETRIES)` in
execute_order_with_retry, with `rem` iterations remaining and `attempt` the
current 0-based attempt index.  A successful call returns at once; a failed
call waits `RETRY_DELAY * 2 ** attempt` and retries, except on the last
attempt where it returns `none` without waiting. -/
def retryLoop (op : ℕ → Option Order) (baseDelay : ℚ) : ℕ → ℕ → RetryOutcome
  | 0, _ => ⟨none, 0, []⟩
  | rem + 1, attempt =>
    match op attempt with
    | some o => ⟨some o, 1, []⟩
    | none =>
      if rem = 0 then ⟨none, 1, []⟩
      else
        let rest := retryLoop op baseDelay rem (attempt + 1)
        ⟨rest.result, rest.calls + 1, baseDelay * 2 ^ attempt :: rest.waits⟩

/-- Model of execute_order_with_retry (source lines 534 to 550): run the
operation up to `maxRetries` times with exponential back-off, returning `none`
after exhausting all attempts instead of raising. -/
def execute_order_with_retry (maxRetries : ℕ) (baseDelay : ℚ)
    (op : ℕ → Option Order) : RetryOutcome :=
  retryLoop op baseDelay maxRetries 0

/-- Exchange market limits and precision data, as read from
market_info limits and used by calculate_position_size and the stop-loss
price rounding.  `maxAmount` is `none` when the exchange reports no maximum
(Python None, which is falsy exactly like 0.0). -/
structure MarketLimits where
  minAmount : ℚ
  maxAmount : Option ℚ
  stepSize : ℚ
  minCost : ℚ
  priceTick : ℚ
deriving DecidableEq, Repr

/-- Model of ccxt amount_to_precision: truncate (round towards zero from
above, that is round down for nonnegative amounts) to the amount step. -/
def amount_to_precision (step q : ℚ) : ℚ := (⌊q / step⌋ : ℚ) * step

/-- Model of ccxt price_to_precision: round to the nearest price tick. -/
def price_to_precision (tick q : ℚ) : ℚ := (round (q / tick) : ℚ) * tick

/-- The raw position size of calculate_position_size before any precision or
limit handling: risk_amount = balance * RISK_PER_TRADE, then
position_size_usdt = risk_amount / STOP_LOSS_PCT, then divided by price
(source lines 486 to 490). -/
def rawQuantity (balance riskPerTrade stopLossPct price : ℚ) : ℚ :=
  balance * riskPerTrade / stopLossPct / price

/-- The maximum-amount clamp of calculate_position_size (source lines
507 to 511): Python `if max_amount and amount > max_amount`, where a missing
(None) or zero maximum is falsy and disables the clamp. -/
def clampMax (maxAmount : Option ℚ) (q : ℚ) : ℚ :=
  match maxAmount with
  | some mx => if mx ≠ 0 ∧ mx < q then mx else q
  | none => q

/-- Model of calculate_position_size (source lines 464 to 529).  Returns the
pair (amount_coin, usdt_balance); a returned amount of 0 means the sizing was
rejected and no order is to be submitted this cycle. -/
def calculate_position_size (riskPerTrade stopLossPct : ℚ) (lim : MarketLimits)
    (usdtBalance currentPrice : ℚ) : ℚ × ℚ :=
  if usdtBalance ≤ 0 then (0, usdtBalance)
  else
    let amountCoinFloat :=
      amount_to_precision lim.stepSize
        (rawQuantity usdtBalance riskPerTrade stopLossPct currentPrice)
    if amountCoinFloat < lim.minAmount then (0, usdtBalance)
    else
      let amountClamped := clampMax lim.maxAmount amountCoinFloat
      if amountClamped * currentPrice < lim.minCost then (0, usdtBalance)
      else (amountClamped, usdtBalance)

/-- Arithmetic mean of a list, matching pandas rolling mean over a full
window. -/
def rollingMean (xs : List ℚ) : ℚ := xs.sum / (xs.length : ℚ)

/-- Sample variance (ddof = 1), the square of the pandas rolling std over a
full window.  For a singleton window the rational division by zero yields 0,
which the z-score model below treats as undefined, matching the pandas NaN. -/
def sampleVariance (xs : List ℚ) : ℚ :=
  (xs.map (fun x => (x - rollingMean xs) ^ 2)).sum / ((xs.length : ℚ) - 1)

/-- The trailing window of the `w` most recent samples. -/
def lastWindow (w : ℕ) (xs : List ℚ) : List ℚ := xs.drop (xs.length - w)

/-- Model of calculate_z_score (source lines 454 to 459) evaluated at the most
recent row.  The z-score of the last close is (close - mean) / std over the
trailing window.  It is undefined (pandas NaN) when fewer than `window`
samples exist or when the rolling standard deviation is zero; since the
standard deviation is an irrational square root, a defined z-score is
represented by the pair (close - mean, variance), meaning the real number
(close - mean) / sqrt variance. -/
def calculate_z_score (window : ℕ) (closes : List ℚ) : Option (ℚ × ℚ) :=
  if closes.length < window then none
  else
    let w := lastWindow window closes
    let v := sampleVariance w
    if v = 0 then none
    else some ((w.getLast?.getD 0) - rollingMean w, v)

/-- Boolean model of the float comparison z > t for a defined z-score
z = d / sqrt v with v > 0, expressed by rational sign analysis and squaring
so that it stays decidable.  Its agreement with the real comparison is proved
in `gtAux_models_gt`. -/
def gtAux (d t v : ℚ) : Bool :=
  if 0 ≤ t then decide (0 < d) && decide (t ^ 2 * v < d ^ 2)
  else decide (0 ≤ d) || decide (d ^ 2 < t ^ 2 * v)

/-- Model of the run_bot comparison `last_z > t`: false when the z-score is
NaN (IEEE semantics), otherwise the real comparison d / sqrt v > t. -/
def zGt : Option (ℚ × ℚ) → ℚ → Bool
  | none, _ => false
  | some (d, v), t => gtAux d t v

/-- Model of the run_bot comparison `last_z < t`: false when the z-score is
NaN, otherwise the real comparison d / sqrt v < t. -/
def zLt : Option (ℚ × ℚ) → ℚ → Bool
  | none, _ => false
  | some (d, v), t => gtAux (-d) (-t) v

/-- Gateway-level submission recorded during a cycle: every call attempt made
against the exchange order endpoints. -/
inductive Ev
  | marketOrder (side : Side) (qty : ℚ)
  | stopOrder (side : Side) (qty : ℚ) (stopPrice : ℚ)
  | cancelOrder (id : ℕ)
deriving DecidableEq, Repr

/-- What set_stop_loss_with_safety did: whether it reported success, the
emergency close requests it issued through the retry executor (side and
quantity, one entry per executor-level request), the result of that emergency
request, the gateway submissions, and the signed change it caused to the net
exchange position. -/
structure SLReport where
  ok : Bool
  emergencyCalls : List (Side × ℚ)
  emergencyResult : Option Order
  events : List Ev
  posDelta : ℚ
deriving Repr

/-- Model of set_stop_loss_with_safety (source lines 552 to 606).  `side` is
the side of the protective stop order (sell for a long position, buy for a
short one).  The stop price is rounded to the price tick, then the
STOP_MARKET order is attempted with the same retry loop as
execute_order_with_retry; if every attempt fails, one emergency market order
for the same quantity is issued through execute_order_with_retry with
`close_side` computed, exactly as in the source, by flipping the side of the
STOP order, and the function reports failure. -/
def set_stop_loss_with_safety (maxRetries : ℕ) (baseDelay : ℚ)
    (lim : MarketLimits) (slOracle closeOracle : ℕ → Option Order)
    (side : Side) (amount : ℚ) (stopPriceRaw : ℚ) : SLReport :=
  let stop_price := price_to_precision lim.priceTick stopPriceRaw
  let slRun := execute_order_with_retry maxRetries baseDelay slOracle
  if slRun.result.isSome then
    { ok := true
      emergencyCalls := []
      emergencyResult := none
      events := List.replicate slRun.calls (Ev.stopOrder side amount stop_price)
      posDelta := 0 }
  else
    let close_side := if side = Side.buy then Side.sell else Side.buy
    let emergency := execute_order_with_retry maxRetries baseDelay closeOracle
    { ok := false
      emergencyCalls := [(close_side, amount)]
      emergencyResult := emergency.result
      events := List.replicate slRun.calls (Ev.stopOrder side amount stop_price)
        ++ List.replicate emergency.calls (Ev.marketOrder close_side amount)
      posDelta :=
        match emergency.result with
        | some _ => signedQty close_side amount
        | none => 0 }

/-- Entry signal passed to execute_trade. -/
inductive Signal
  | BUY
  | SELL
deriving DecidableEq, Repr

/-- What execute_trade did: the value it returned (`none` means the caller
must not record a position), the gateway submissions, the resulting net
signed exchange position created by the call, whether a protective stop is
active, and the emergency close requests issued. -/
structure TradeReport where
  result : Option Order
  events : List Ev
  exchangePos : ℚ
  stopActive : Bool
  emergencyCalls : List (Side × ℚ)
deriving Repr

/-- Model of execute_trade (source lines 608 to 717).  A BUY signal submits a
market buy through the retry executor; on success the stop price is
current_price * (1 - STOP_LOSS_PCT) and the protective sell stop is placed by
set_stop_loss_with_safety; if that reports failure the function returns
`none`.  The SELL branch is symmetric with stop price
current_price * (1 + STOP_LOSS_PCT) and a buy stop. -/
def execute_trade (maxRetries : ℕ) (baseDelay stopLossPct : ℚ)
    (lim : MarketLimits) (entryOracle slOracle closeOracle : ℕ → Option Order)
    (signal : Signal) (current_price amount : ℚ) : TradeReport :=
  match signal with
  | Signal.BUY =>
    let entry := execute_order_with_retry maxRetries baseDelay entryOracle
    let entryEvents := List.replicate entry.calls (Ev.marketOrder Side.buy amount)
    match entry.result with
    | none =>
      { result := none, events := entryEvents, exchangePos := 0
        stopActive := false, emergencyCalls := [] }
    | some o =>
      let stop_loss_price := current_price * (1 - stopLossPct)
      let sl := set_stop_loss_with_safety maxRetries baseDelay lim slOracle
        closeOracle Side.sell amount stop_loss_price
      if sl.ok then
        { result := some o, events := entryEvents ++ sl.events
          exchangePos := amount, stopActive := true, emergencyCalls := [] }
      else
        { result := none, events := entryEvents ++ sl.events
          exchangePos := amount + sl.posDelta, stopActive := false
          emergencyCalls := sl.emergencyCalls }
  | Signal.SELL =>
    let entry := execute_order_with_retry maxRetries baseDelay entryOracle
    let entryEvents := List.replicate entry.calls (Ev.marketOrder Side.sell amount)
    match entry.result with
    | none =>
      { result := none, events := entryEvents, exchangePos := 0
        stopActive := false, emergencyCalls := [] }
    | some o =>
      let stop_loss_price := current_price * (1 + stopLossPct)
      let sl := set_stop_loss_with_safety maxRetries baseDelay lim slOracle
        closeOracle Side.buy amount stop_loss_price
      if sl.ok then
        { result := some o, events := entryEvents ++ sl.events
          exchangePos := -amount, stopActive := true, emergencyCalls := [] }
      else
        { result := none, events := entryEvents ++ sl.events
          exchangePos := -amount + sl.posDelta, stopActive := false
          emergencyCalls := sl.emergencyCalls }

/-- Position kind recorded by the controller, the Python strings LONG and
SHORT. -/
inductive PosType
  | LONG
  | SHORT
deriving DecidableEq, Repr

/-- What close_position did: whether the close order was confirmed and the
gateway submissions (stop cancellations first, then the closing market
order attempts). -/
structure CloseReport where
  ok : Bool
  events : List Ev
deriving Repr

/-- Model of close_position (source lines 719 to 794): best-effort
cancellation of the open STOP_MARKET orders, then a closing market order
through the retry executor, buy for a SHORT and sell for a LONG.  It returns
true only when the close order was confirmed. -/
def close_position (maxRetries : ℕ) (baseDelay : ℚ) (openStops : List ℕ)
    (closeOracle : ℕ → Option Order) (ptype : PosType) (amount : ℚ) :
    CloseReport :=
  let cancelEvents := openStops.map Ev.cancelOrder
  let closeRun := execute_order_with_retry maxRetries baseDelay closeOracle
  let side := match ptype with
    | PosType.SHORT => Side.buy
    | PosType.LONG => Side.sell
  { ok := closeRun.result.isSome
    events := cancelEvents ++ List.replicate closeRun.calls (Ev.marketOrder side amount) }

/-- The four controller state variables of run_bot: in_position,
position_type, position_amount, entry_price. -/
structure BotState where
  in_position : Bool
  position_type : Option PosType
  position_amount : ℚ
  entry_price : ℚ
deriving DecidableEq, Repr

/-- Strategy and retry configuration read from the environment. -/
structure BotConfig where
  entryThreshold : ℚ
  exitThreshold : ℚ
  riskPerTrade : ℚ
  stopLossPct : ℚ
  maxRetries : ℕ
  retryDelay : ℚ

/-- Exchange-side inputs of one decision cycle: the free balance fetched for
sizing, the market limits, the oracles driving the entry order, the stop
order, the emergency close order and the exit close order, and the ids of the
open STOP_MARKET orders to cancel on close. -/
structure CycleEnv where
  balance : ℚ
  lim : MarketLimits
  entryOracle : ℕ → Option Order
  slOracle : ℕ → Option Order
  emergencyOracle : ℕ → Option Order
  closeOracle : ℕ → Option Order
  openStops : List ℕ

/-- How a decision cycle ended, mirroring which branch of run_bot ran. -/
inductive CycleOutcome
  | noAction
  | sizingRejected
  | openFailed
  | opened (t : PosType) (amount price : ℚ)
  | closeFailed
  | closed
deriving DecidableEq, Repr

/-- Model of one iteration of the run_bot decision logic (source lines 846 to
885), given the z-score of the last closed candle and its close price.
Returns the updated controller state, the gateway submissions of the cycle,
and which branch ran.  Faithful details: entry is attempted only when flat
and the sized amount is positive; the recorded position uses the sized
amount and the signal-time close price; a successful close clears
in_position, position_type and position_amount but leaves entry_price
untouched; any failed attempt leaves the whole state untouched. -/
def run_bot_cycle (cfg : BotConfig) (env : CycleEnv) (st : BotState)
    (z : Option (ℚ × ℚ)) (current_price : ℚ) :
    BotState × List Ev × CycleOutcome :=
  if st.in_position = false then
    if zGt z cfg.entryThreshold then
      let sized := calculate_position_size cfg.riskPerTrade cfg.stopLossPct
        env.lim env.balance current_price
      if 0 < sized.1 then
        let tr := execute_trade cfg.maxRetries cfg.retryDelay cfg.stopLossPct
          env.lim env.entryOracle env.slOracle env.emergencyOracle
          Signal.SELL current_price sized.1
        match tr.result with
        | some _ =>
          (⟨true, some PosType.SHORT, sized.1, current_price⟩, tr.events,
            CycleOutcome.opened PosType.SHORT sized.1 current_price)
        | none => (st, tr.events, CycleOutcome.openFailed)
      else (st, [], CycleOutcome.sizingRejected)
    else if zLt z (-cfg.entryThreshold) then
      let sized := calculate_position_size cfg.riskPerTrade cfg.stopLossPct
        env.lim env.balance current_price
      if 0 < sized.1 then
        let tr := execute_trade cfg.maxRetries cfg.retryDelay cfg.stopLossPct
          env.lim env.entryOracle env.slOracle env.emergencyOracle
          Signal.BUY current_price sized.1
        match tr.result with
        | some _ =>
          (⟨true, some PosType.LONG, sized.1, current_price⟩, tr.events,
            CycleOutcome.opened PosType.LONG sized.1 current_price)
        | none => (st, tr.events, CycleOutcome.openFailed)
      else (st, [], CycleOutcome.sizingRejected)
    else (st, [], CycleOutcome.noAction)
  else
    match st.position_type with
    | some PosType.SHORT =>
      if zLt z cfg.exitThreshold then
        let cr := close_position cfg.maxRetries cfg.retryDelay env.openStops
          env.closeOracle PosType.SHORT st.position_amount
        if cr.ok then
          (⟨false, none, 0, st.entry_price⟩, cr.events, CycleOutcome.closed)
        else (st, cr.events, CycleOutcome.closeFailed)
      else (st, [], CycleOutcome.noAction)
    | some PosType.LONG =>
      if zGt z (-cfg.exitThreshold) then
        let cr := close_position cfg.maxRetries cfg.retryDelay env.openStops
          env.closeOracle PosType.LONG st.position_amount
        if cr.ok then
          (⟨false, none, 0, st.entry_price⟩, cr.events, CycleOutcome.closed)
        else (st, cr.events, CycleOutcome.closeFailed)
      else (st, [], CycleOutcome.noAction)
    | none => (st, [], CycleOutcome.noAction)

/-- Raw per-symbol position record as returned by fetch_positions. -/
structure RawPosition where
  symbol : ℕ
  contracts : ℚ
  entryPrice : ℚ
  unrealizedPnl : ℚ
deriving DecidableEq, Repr

/-- Reconciled position state returned by fetch_current_position. -/
structure PositionState where
  in_position : Bool
  position_type : Option PosType
  position_amount : ℚ
  entry_price : ℚ
  unrealized_pnl : ℚ
deriving DecidableEq, Repr

/-- The flat state returned by fetch_current_position when no position is
found or when the gateway call raises. -/
def flatPositionState : PositionState :=
  { in_position := false, position_type := none, position_amount := 0
    entry_price := 0, unrealized_pnl := 0 }

/-- The scan of the fetch_positions response inside fetch_current_position:
the first record for the symbol with a nonzero contract count is adopted,
otherwise the flat state is returned. -/
def scanPositions (symbol : ℕ) : List RawPosition → PositionState
  | [] => flatPositionState
  | p :: rest =>
    if p.symbol = symbol then
      if p.contracts ≠ 0 then
        { in_position := true
          position_type := some (if 0 < p.contracts then PosType.LONG else PosType.SHORT)
          position_amount := |p.contracts|
          entry_price := p.entryPrice
          unrealized_pnl := p.unrealizedPnl }
      else scanPositions symbol rest
    else scanPositions symbol rest

/-- Model of fetch_current_position (source lines 336 to 396).  The argument
`fetched` is the fetch_positions response, `none` when the gateway call
raised; the except branch returns the flat state. -/
def fetch_current_position (symbol : ℕ)
    (fetched : Option (List RawPosition)) : PositionState :=
  match fetched with
  | none => flatPositionState
  | some ps => scanPositions symbol ps

/-- The controller state with which run_bot enters its trading loop (source
lines 819 to 824), copied from the reconciled position state. -/
def initialBotState (symbol : ℕ)
    (fetched : Option (List RawPosition)) : BotState :=
  let ps := fetch_current_position symbol fetched
  ⟨ps.in_position, ps.position_type, ps.position_amount, ps.entry_price⟩

/-! Concrete scenario data used by witnesses, counterexamples and bug
evaluations. -/

/-- An oracle whose every attempt raises a transport error. -/
def noneOracle : ℕ → Option Order := fun _ => none

/-- Confirmed entry order result with average fill price 101. -/
def orderA : Order := ⟨1, 101, 5⟩

/-- Confirmed stop order result. -/
def orderB : Order := ⟨2, 98, 5⟩

/-- Confirmed emergency close order result. -/
def orderC : Order := ⟨3, 100, 5⟩

/-- An oracle that confirms every attempt with the entry order result. -/
def entryOk : ℕ → Option Order := fun _ => some orderA

/-- An oracle that confirms every attempt with the stop order result. -/
def stopOk : ℕ → Option Order := fun _ => some orderB

/-- An oracle that confirms every attempt with the close order result. -/
def closeOk : ℕ → Option Order := fun _ => some orderC

/-- Oracle that fails exactly twice and then succeeds, for the retry
scenario. -/
def twoFailOracle : ℕ → Option Order :=
  fun i => if i < 2 then none else some ⟨7, 100, 5⟩

/-- Default-like configuration: entry threshold 2, exit threshold 1/2, risk
1 percent, stop loss 2 percent, 3 retries with base delay 2. -/
def stdCfg : BotConfig := ⟨2, 1/2, 1/100, 1/50, 3, 2⟩

/-- Market limits resembling a liquid perpetual market. -/
def stdLim : MarketLimits := ⟨1/1000, none, 1/1000, 5, 1/100⟩

/-- Market limits whose maximum amount 3 is not a multiple of the step 2. -/
def cexLimits : MarketLimits := ⟨1, some 3, 2, 0, 1/100⟩

/-- Market limits with a minimum notional of 600 USDT. -/
def bigCostLim : MarketLimits := ⟨1/1000, none, 1/1000, 600, 1/100⟩

/-- The flat controller state. -/
def flatBot : BotState := ⟨false, none, 0, 0⟩

/-- A z-score far below the negative entry threshold: -3 standard
deviations. -/
def zLong : Option (ℚ × ℚ) := some (-3, 1)

/-- A z-score far above the entry threshold: +3 standard deviations. -/
def zShort : Option (ℚ × ℚ) := some (3, 1)

/-- Cycle environment in which entry and stop orders confirm at once. -/
def envHappy : CycleEnv := ⟨1000, stdLim, entryOk, stopOk, noneOracle, noneOracle, []⟩

/-- Cycle environment in which every entry order attempt fails. -/
def envOpenFail : CycleEnv := ⟨1000, stdLim, noneOracle, noneOracle, noneOracle, noneOracle, []⟩

/-- Cycle environment with a 600 USDT minimum notional, rejecting the sized
order. -/
def envBigCost : CycleEnv := ⟨1000, bigCostLim, entryOk, stopOk, noneOracle, noneOracle, []⟩

/-- Pathological market limits whose maximum amount 3 lies below the minimum
amount 5 (step 1, no minimum notional). -/
def cexMinLim : MarketLimits := ⟨5, some 3, 1, 0, 1/100⟩

/-- Configuration with full risk fraction and stop fraction 1, so the raw
quantity equals balance / price. -/
def cexMinCfg : BotConfig := ⟨2, 1/2, 1, 1, 3, 2⟩

/-- Cycle environment over the pathological limits with balance 10 and
confirming entry and stop oracles. -/
def cexMinEnv : CycleEnv := ⟨10, cexMinLim, entryOk, stopOk, noneOracle, noneOracle, []⟩

/-! Helper lemmas. -/

/-- If the first `k` attempts starting at index `a` fail and attempt `a + k`
succeeds, with `k` strictly below the remaining budget, the retry loop
returns that success after exactly `k + 1` calls, having waited
`baseDelay * 2 ^ i` after the failed attempt of index `i`. -/
lemma retryLoop_success (op : ℕ → Option Order) (base : ℚ) (o : Order) :
    ∀ (k rem a : ℕ), k < rem → (∀ i, i < k → op (a + i) = none) →
      op (a + k) = some o →
      retryLoop op base rem a =
        ⟨some o, k + 1, (List.range k).map fun i => base * 2 ^ (a + i)⟩ := by
  intro k
  induction k with
  | zero =>
    intro rem a hrem _ hk
    cases rem with
    | zero => omega
    | succ r =>
      simp only [retryLoop]
      rw [show a + 0 = a from rfl] at hk
      rw [hk]
      rfl
  | succ j ih =>
    intro rem a hrem hfail hk
    cases rem with
    | zero => omega
    | succ rem =>
      have hj : j < rem := by omega
      have h0 : op a = none := by
        have := hfail 0 (by omega)
        simpa using this
      have hrem0 : ¬ rem = 0 := by omega
      simp only [retryLoop, h0, if_neg hrem0]
      have ihr := ih rem (a + 1) hj
        (fun i hi => by
          have e : a + 1 + i = a + (i + 1) := by omega
          rw [e]; exact hfail (i + 1) (by omega))
        (by
          have e : a + 1 + j = a + (j + 1) := by omega
          rw [e]; exact hk)
      rw [ihr]
      have hw : base * 2 ^ a :: ((List.range j).map fun i => base * 2 ^ (a + 1 + i)) =
          (List.range (j + 1)).map fun i => base * 2 ^ (a + i) := by
        rw [List.range_succ_eq_map, List.map_cons, List.map_map]
        refine congrArg₂ _ (by rw [Nat.add_zero]) ?_
        have hf : (fun i => base * 2 ^ (a + 1 + i)) =
            ((fun i => base * 2 ^ (a + i)) ∘ Nat.succ) := by
          funext i
          have e : a + 1 + i = a + (i + 1) := by omega
          simp [Function.comp, e]
        rw [hf]
      rw [hw]

/-- If every attempt in the remaining budget fails, the retry loop returns
`none` after exactly that many calls. -/
lemma retryLoop_allFail (op : ℕ → Option Order) (base : ℚ) :
    ∀ (rem a : ℕ), (∀ i, i < rem → op (a + i) = none) →
      (retryLoop op base rem a).result = none ∧
      (retryLoop op base rem a).calls = rem := by
  intro rem
  induction rem with
  | zero => intro a _; exact ⟨rfl, rfl⟩
  | succ r ih =>
    intro a h
    have h0 : op a = none := by
      have := h 0 (by omega)
      simpa using this
    by_cases hr : r = 0
    · subst hr
      simp [retryLoop, h0]
    · have ihr := ih (a + 1) (fun i hi => by
        have e : a + 1 + i = a + (i + 1) := by omega
        rw [e]; exact h (i + 1) (by omega))
      simp only [retryLoop, h0, if_neg hr]
      exact ⟨ihr.1, by rw [ihr.2]⟩

/-- Claim C7: an operation that fails exactly k times and then succeeds, with
k below the retry budget, makes the executor return the success after exactly
k + 1 invocations, with waits baseDelay * 2 ^ attempt before each retry,
hence strictly increasing; after maxAttempts consecutive failures the
executor returns the failure value none instead of raising. -/
theorem retry_executor_spec (maxRetries : ℕ) (base : ℚ) (op : ℕ → Option Order)
    (hb : 0 < base) :
    (∀ (k : ℕ) (o : Order), k < maxRetries → (∀ i, i < k → op i = none) →
      op k = some o →
      (execute_order_with_retry maxRetries base op).result = some o ∧
      (execute_order_with_retry maxRetries base op).calls = k + 1 ∧
      (execute_order_with_retry maxRetries base op).waits =
        (List.range k).map (fun i => base * 2 ^ i) ∧
      List.Chain' (fun x y => x < y) (execute_order_with_retry maxRetries base op).waits) ∧
    ((∀ i, i < maxRetries → op i = none) →
      (execute_order_with_retry maxRetries base op).result = none ∧
      (execute_order_with_retry maxRetries base op).calls = maxRetries) := by
  constructor
  · intro k o hk hfail hsucc
    have h := retryLoop_success op base o k maxRetries 0 hk
      (fun i hi => by simpa using hfail i hi) (by simpa using hsucc)
    have hmap : ((List.range k).map fun i => base * 2 ^ (0 + i)) =
        (List.range k).map fun i => base * 2 ^ i := by
      simp
    rw [execute_order_with_retry, h, hmap]
    refine ⟨rfl, rfl, rfl, ?_⟩
    have hp : List.Pairwise (fun x y => x < y)
        ((List.range k).map fun i => base * 2 ^ i) := by
      refine List.Pairwise.map _ ?_ (List.pairwise_lt_range k)
      intro i j hij
      have h2 : (2 : ℚ) ^ i < 2 ^ j := by
        gcongr
        norm_num
      exact mul_lt_mul_of_pos_left h2 hb
    exact hp.chain'
  · intro hall
    have h := retryLoop_allFail op base maxRetries 0
      (fun i hi => by simpa using hall i hi)
    exact ⟨h.1, h.2⟩

/-- Witness for C7 at a concrete input: two failures then a success within a
budget of three attempts, base delay 2, yields the success after three calls
with waits 2 and 4. -/
theorem retry_executor_spec_witness :
    (execute_order_with_retry 3 2 twoFailOracle).result = some ⟨7, 100, 5⟩ ∧
    (execute_order_with_retry 3 2 twoFailOracle).calls = 3 ∧
    (execute_order_with_retry 3 2 twoFailOracle).waits = [2, 4] := by
  have h := (retry_executor_spec 3 2 twoFailOracle (by norm_num)).1 2 ⟨7, 100, 5⟩
    (by omega)
    (fun i hi => by
      match i, hi with
      | 0, _ => rfl
      | 1, _ => rfl)
    rfl
  refine ⟨h.1, h.2.1, ?_⟩
  rw [h.2.2.1]
  norm_num [List.range_succ]

/-- Truncation to the amount step never increases the quantity. -/
lemma amount_to_precision_le (step q : ℚ) (hstep : 0 < step) :
    amount_to_precision step q ≤ q := by
  unfold amount_to_precision
  calc (⌊q / step⌋ : ℚ) * step ≤ q / step * step :=
        mul_le_mul_of_nonneg_right (Int.floor_le _) hstep.le
    _ = q := div_mul_cancel₀ q (ne_of_gt hstep)

/-- The maximum clamp never increases the quantity. -/
lemma clampMax_le (m : Option ℚ) (q : ℚ) : clampMax m q ≤ q := by
  cases m with
  | none => exact le_refl q
  | some mx =>
    by_cases h : mx ≠ 0 ∧ mx < q
    · simp only [clampMax, if_pos h]
      exact h.2.le
    · simp only [clampMax, if_neg h]
      exact le_refl q

/-- When the step-truncated quantity checked by the source (line 501, before
the maximum clamp) is below the minimum amount, or the clamped notional is
below the minimum cost, calculate_position_size returns the rejection pair
(0, balance). -/
lemma calculate_position_size_rejected (R S : ℚ) (lim : MarketLimits) (B P : ℚ)
    (hrej : amount_to_precision lim.stepSize (rawQuantity B R S P) < lim.minAmount ∨
      clampMax lim.maxAmount
        (amount_to_precision lim.stepSize (rawQuantity B R S P)) * P < lim.minCost) :
    calculate_position_size R S lim B P = (0, B) := by
  simp only [calculate_position_size]
  split_ifs with h1 h2 h3
  any_goals rfl
  exfalso
  rcases hrej with hlt | hcost
  · exact h2 hlt
  · exact h3 hcost

/-- Claim C5 (amended): the raw quantity is (B*R/S)/P; the step truncation
yields a multiple of the step not exceeding the raw quantity; the
max-amount clamp also never exceeds the raw quantity; and the sizer returns
either the rejection value 0 or exactly the clamped quantity.  (The clamped
quantity itself is a step multiple whenever the clamp did not engage, or the
reported maximum is itself a step multiple; the unamended claim fails when
the maximum is not a step multiple, see the counterexample.) -/
theorem position_sizer_spec (B R S P : ℚ) (lim : MarketLimits)
    (_hB : 0 < B) (_hS : 0 < S) (_hP : 0 < P) (hstep : 0 < lim.stepSize) :
    rawQuantity B R S P = B * R / S / P ∧
    (∃ k : ℤ, amount_to_precision lim.stepSize (rawQuantity B R S P) =
      (k : ℚ) * lim.stepSize) ∧
    amount_to_precision lim.stepSize (rawQuantity B R S P) ≤ rawQuantity B R S P ∧
    clampMax lim.maxAmount (amount_to_precision lim.stepSize (rawQuantity B R S P)) ≤
      rawQuantity B R S P ∧
    ((calculate_position_size R S lim B P).1 = 0 ∨
      (calculate_position_size R S lim B P).1 =
        clampMax lim.maxAmount (amount_to_precision lim.stepSize (rawQuantity B R S P))) := by
  refine ⟨rfl, ⟨⌊rawQuantity B R S P / lim.stepSize⌋, rfl⟩,
    amount_to_precision_le lim.stepSize _ hstep,
    le_trans (clampMax_le _ _) (amount_to_precision_le lim.stepSize _ hstep), ?_⟩
  simp only [calculate_position_size]
  split_ifs <;> simp

/-- Witness for C5 at balance 1000, risk 1 percent, stop 2 percent, price
100 on the standard limits: the truncated quantity does not exceed the raw
quantity and the sizer result is 0 or the clamped quantity. -/
theorem position_sizer_spec_witness :
    amount_to_precision stdLim.stepSize (rawQuantity 1000 (1/100) (1/50) 100) ≤
      rawQuantity 1000 (1/100) (1/50) 100 ∧
    ((calculate_position_size (1/100) (1/50) stdLim 1000 100).1 = 0 ∨
      (calculate_position_size (1/100) (1/50) stdLim 1000 100).1 =
        clampMax stdLim.maxAmount
          (amount_to_precision stdLim.stepSize (rawQuantity 1000 (1/100) (1/50) 100))) := by
  have h := position_sizer_spec 1000 (1/100) (1/50) 100 stdLim
    (by norm_num) (by norm_num) (by norm_num) (by norm_num [stdLim])
  exact ⟨h.2.2.1, h.2.2.2.2⟩

/-- Counterexample to C5 as stated: with step 2 and maximum amount 3 the raw
quantity 5 truncates to 4 and is clamped to the maximum 3, which is not a
multiple of the step, although balance, stop fraction, price and step are
all positive. -/
theorem position_sizer_step_multiple_cex :
    (0 : ℚ) < 5 ∧ (0 : ℚ) < 1 ∧ 0 < cexLimits.stepSize ∧
    (calculate_position_size 1 1 cexLimits 5 1).1 = 3 ∧
    ¬ ∃ k : ℤ, (calculate_position_size 1 1 cexLimits 5 1).1 =
      (k : ℚ) * cexLimits.stepSize := by
  have hval : (calculate_position_size 1 1 cexLimits 5 1).1 = 3 := by
    norm_num [calculate_position_size, cexLimits, rawQuantity, amount_to_precision, clampMax]
  refine ⟨by norm_num, by norm_num, by norm_num [cexLimits], hval, ?_⟩
  rintro ⟨k, hk⟩
  rw [hval] at hk
  have hk2 : (3 : ℚ) = (k : ℚ) * 2 := by
    rw [hk]
    norm_num [cexLimits]
  have hk3 : (3 : ℤ) = k * 2 := by exact_mod_cast hk2
  omega

/-- Claim C6 (amended): when the step-truncated quantity before the maximum
clamp is below the minimum amount, or the clamped notional is below the
minimum cost, the sizer returns 0 and the flat controller submits no order
in that cycle, leaving the state unchanged.  (The source checks the minimum
against the pre-clamp quantity, so a clamped quantity below the minimum can
slip through when the reported maximum lies below the minimum, see the
counterexample.) -/
theorem sizing_rejection_blocks_orders (cfg : BotConfig) (env : CycleEnv)
    (st : BotState) (z : Option (ℚ × ℚ)) (P : ℚ)
    (hflat : st.in_position = false)
    (hrej : amount_to_precision env.lim.stepSize
        (rawQuantity env.balance cfg.riskPerTrade cfg.stopLossPct P) < env.lim.minAmount ∨
      clampMax env.lim.maxAmount
        (amount_to_precision env.lim.stepSize
          (rawQuantity env.balance cfg.riskPerTrade cfg.stopLossPct P)) * P < env.lim.minCost) :
    (calculate_position_size cfg.riskPerTrade cfg.stopLossPct env.lim env.balance P).1 = 0 ∧
    (run_bot_cycle cfg env st z P).1 = st ∧
    (run_bot_cycle cfg env st z P).2.1 = [] := by
  have hz := calculate_position_size_rejected cfg.riskPerTrade cfg.stopLossPct
    env.lim env.balance P hrej
  refine ⟨by rw [hz], ?_, ?_⟩ <;>
  · simp only [run_bot_cycle, hflat, hz]
    norm_num
    split_ifs <;> rfl

/-- Witness for C6: balance 1000 at price 100 sizes to a 500 USDT notional,
below the 600 USDT minimum cost of the market, so the sizer rejects and the
entry cycle does nothing. -/
theorem sizing_rejection_blocks_orders_witness :
    (calculate_position_size stdCfg.riskPerTrade stdCfg.stopLossPct
      envBigCost.lim envBigCost.balance 100).1 = 0 ∧
    (run_bot_cycle stdCfg envBigCost flatBot zShort 100).1 = flatBot ∧
    (run_bot_cycle stdCfg envBigCost flatBot zShort 100).2.1 = [] := by
  refine sizing_rejection_blocks_orders stdCfg envBigCost flatBot zShort 100 rfl
    (Or.inr ?_)
  norm_num [envBigCost, bigCostLim, stdCfg, clampMax, amount_to_precision, rawQuantity]

/-- Counterexample to C6 as stated: with minimum amount 5, maximum amount 3,
step 1, a raw quantity of 10 passes the pre-clamp minimum check, is clamped
to 3 — a quantity below the minimum — and the sizer returns 3, not 0; on an
entry signal the cycle then submits orders, so the no-order conclusion of
the unamended claim fails as well. -/
theorem sizer_min_check_preclamp_cex :
    clampMax cexMinLim.maxAmount
      (amount_to_precision cexMinLim.stepSize (rawQuantity 10 1 1 1)) < cexMinLim.minAmount ∧
    (calculate_position_size 1 1 cexMinLim 10 1).1 = 3 ∧
    (3 : ℚ) ≠ 0 ∧
    (run_bot_cycle cexMinCfg cexMinEnv flatBot zShort 1).2.1 ≠ [] := by
  refine ⟨?_, ?_, by norm_num, ?_⟩
  · norm_num [cexMinLim, clampMax, amount_to_precision, rawQuantity]
  · norm_num [cexMinLim, calculate_position_size, clampMax, amount_to_precision, rawQuantity]
  · simp only [run_bot_cycle, flatBot, cexMinCfg, cexMinEnv, zShort]
    norm_num [zGt, zLt, gtAux, calculate_position_size, rawQuantity, amount_to_precision,
      clampMax, cexMinLim, execute_trade, set_stop_loss_with_safety, execute_order_with_retry,
      retryLoop, price_to_precision, entryOk, stopOk, noneOracle, orderA, orderB]
    exact List.cons_ne_nil _ _

/-- Claim C4: whenever a decision cycle fails at any stage — the sizer
rejects, the entry attempt fails (including the stop-loss safety path
reporting failure), or the close order fails — the four controller state
variables are exactly what they were before the attempt. -/
theorem cycle_failure_preserves_state (cfg : BotConfig) (env : CycleEnv)
    (st : BotState) (z : Option (ℚ × ℚ)) (P : ℚ)
    (h : (run_bot_cycle cfg env st z P).2.2 = CycleOutcome.sizingRejected ∨
      (run_bot_cycle cfg env st z P).2.2 = CycleOutcome.openFailed ∨
      (run_bot_cycle cfg env st z P).2.2 = CycleOutcome.closeFailed) :
    (run_bot_cycle cfg env st z P).1 = st := by
  simp only [run_bot_cycle] at h ⊢
  repeat' split
  all_goals simp_all

/-- Witness for C4 at a concrete input: with every entry order attempt
failing, the cycle that tries to open a long leaves the flat state
unchanged. -/
theorem cycle_failure_preserves_state_witness :
    (run_bot_cycle stdCfg envOpenFail flatBot zLong 100).1 = flatBot := by
  refine cycle_failure_preserves_state stdCfg envOpenFail flatBot zLong 100
    (Or.inr (Or.inl ?_))
  simp only [run_bot_cycle, flatBot, envOpenFail, stdCfg, zLong]
  norm_num [zGt, zLt, gtAux, calculate_position_size, rawQuantity, amount_to_precision,
    clampMax, stdLim, execute_trade, execute_order_with_retry, retryLoop, noneOracle]

/-- Claim C3 (amended): when a cycle opens a position, the controller stores
the pre-order sized amount as position_amount and the signal-time close
price as entry_price; neither is read back from the confirmed order result
of the entry order. -/
theorem opened_state_uses_presubmission_values (cfg : BotConfig) (env : CycleEnv)
    (st : BotState) (z : Option (ℚ × ℚ)) (P : ℚ) (t : PosType) (a q : ℚ)
    (h : (run_bot_cycle cfg env st z P).2.2 = CycleOutcome.opened t a q) :
    (run_bot_cycle cfg env st z P).1.entry_price = P ∧
    (run_bot_cycle cfg env st z P).1.position_amount =
      (calculate_position_size cfg.riskPerTrade cfg.stopLossPct env.lim env.balance P).1 ∧
    a = (calculate_position_size cfg.riskPerTrade cfg.stopLossPct env.lim env.balance P).1 ∧
    q = P := by
  simp only [run_bot_cycle] at h ⊢
  repeat' split at h
  all_goals try simp_all
  all_goals obtain ⟨h1, h2, h3⟩ := h
  all_goals subst h3
  all_goals exact h2.symm

/-- Witness for the amended C3: in the happy-path long entry the recorded
entry price is the signal price 100 and the recorded amount is the sized
amount. -/
theorem opened_state_uses_presubmission_values_witness :
    (run_bot_cycle stdCfg envHappy flatBot zLong 100).1.entry_price = 100 ∧
    (run_bot_cycle stdCfg envHappy flatBot zLong 100).1.position_amount =
      (calculate_position_size stdCfg.riskPerTrade stdCfg.stopLossPct
        envHappy.lim envHappy.balance 100).1 := by
  have h := opened_state_uses_presubmission_values stdCfg envHappy flatBot zLong 100
    PosType.LONG 5 100 (by
      simp only [run_bot_cycle, flatBot, envHappy, stdCfg, zLong]
      norm_num [zGt, zLt, gtAux, calculate_position_size, rawQuantity, amount_to_precision,
        clampMax, stdLim, execute_trade, set_stop_loss_with_safety, execute_order_with_retry,
        retryLoop, price_to_precision, entryOk, stopOk, noneOracle, orderA, orderB])
  exact ⟨h.1, h.2.1⟩

/-- Counterexample to C3 as stated: in a cycle whose confirmed entry order
reports an average fill price of 101, the controller nevertheless records
entry_price 100, the signal-time price, so the stored value is not taken
from the confirmed order result. -/
theorem opened_state_ignores_order_result_cex :
    (run_bot_cycle stdCfg envHappy flatBot zLong 100).1.entry_price = 100 ∧
    (execute_order_with_retry stdCfg.maxRetries stdCfg.retryDelay
      envHappy.entryOracle).result = some ⟨1, 101, 5⟩ ∧
    (100 : ℚ) ≠ 101 := by
  refine ⟨?_, ?_, by norm_num⟩
  · simp only [run_bot_cycle, flatBot, envHappy, stdCfg, zLong]
    norm_num [zGt, zLt, gtAux, calculate_position_size, rawQuantity, amount_to_precision,
      clampMax, stdLim, execute_trade, set_stop_loss_with_safety, execute_order_with_retry,
      retryLoop, price_to_precision, entryOk, stopOk, noneOracle, orderA, orderB]
  · simp [stdCfg, envHappy, entryOk, orderA, execute_order_with_retry, retryLoop]

/-- Claim C8: when the window is shorter than the lookback or the rolling
standard deviation over it is zero, the z-score is undefined (NaN), every
entry and exit comparison is false, and the decision cycle is a no-op: state
unchanged, no gateway submission, regardless of the price values. -/
theorem zero_stddev_no_signal (cfg : BotConfig) (env : CycleEnv) (st : BotState)
    (W : ℕ) (closes : List ℚ) (P : ℚ)
    (h : closes.length < W ∨ sampleVariance (lastWindow W closes) = 0) :
    calculate_z_score W closes = none ∧
    zGt (calculate_z_score W closes) cfg.entryThreshold = false ∧
    zLt (calculate_z_score W closes) (-cfg.entryThreshold) = false ∧
    run_bot_cycle cfg env st (calculate_z_score W closes) P =
      (st, [], CycleOutcome.noAction) := by
  have hz : calculate_z_score W closes = none := by
    rcases h with hlen | hvar
    · simp only [calculate_z_score, if_pos hlen]
    · by_cases hlen : closes.length < W
      · simp only [calculate_z_score, if_pos hlen]
      · simp only [calculate_z_score, if_neg hlen, hvar, if_pos]
  refine ⟨hz, by rw [hz]; rfl, by rw [hz]; rfl, ?_⟩
  rw [hz]
  rcases st with ⟨ip, pt, pa, ep⟩
  cases ip
  · simp [run_bot_cycle, zGt, zLt]
  · cases pt with
    | none => simp [run_bot_cycle, zGt, zLt]
    | some t => cases t <;> simp [run_bot_cycle, zGt, zLt]

/-- Witness for C8: a two-sample window of equal prices has zero standard
deviation, hence no z-score and a no-op cycle. -/
theorem zero_stddev_no_signal_witness :
    calculate_z_score 2 [1, 1] = none ∧
    run_bot_cycle stdCfg envOpenFail flatBot (calculate_z_score 2 [1, 1]) 100 =
      (flatBot, [], CycleOutcome.noAction) := by
  have h := zero_stddev_no_signal stdCfg envOpenFail flatBot 2 [1, 1] 100
    (Or.inr (by norm_num [sampleVariance, lastWindow, rollingMean]))
  exact ⟨h.1, h.2.2.2⟩

/-- Every stop order submitted by set_stop_loss_with_safety carries the
requested stop price rounded to the price tick, the requested side, and the
requested quantity. -/
lemma sl_stop_events (mh : ℕ) (base : ℚ) (lim : MarketLimits)
    (so co : ℕ → Option Order) (side : Side) (amount sp0 : ℚ) :
    ∀ s q sp, Ev.stopOrder s q sp ∈
        (set_stop_loss_with_safety mh base lim so co side amount sp0).events →
      sp = price_to_precision lim.priceTick sp0 ∧ s = side ∧ q = amount := by
  intro s q sp hmem
  simp only [set_stop_loss_with_safety] at hmem
  split at hmem
  · simp only [List.mem_replicate] at hmem
    obtain ⟨-, heq⟩ := hmem
    cases heq
    exact ⟨rfl, rfl, rfl⟩
  · simp only [List.mem_append, List.mem_replicate] at hmem
    rcases hmem with ⟨-, heq⟩ | ⟨-, heq⟩
    · cases heq
      exact ⟨rfl, rfl, rfl⟩
    · cases heq

/-- Claim C9: the protective stop submitted while opening at price P uses
stop price P * (1 - S) for a long entry (sell stop) and P * (1 + S) for a
short entry (buy stop), rounded to the market price tick, for the full
requested quantity. -/
theorem stop_price_formula (mh : ℕ) (base S : ℚ) (lim : MarketLimits)
    (eo so co : ℕ → Option Order) (P a : ℚ) :
    (∀ s q sp, Ev.stopOrder s q sp ∈
        (execute_trade mh base S lim eo so co Signal.BUY P a).events →
      sp = price_to_precision lim.priceTick (P * (1 - S)) ∧
        s = Side.sell ∧ q = a) ∧
    (∀ s q sp, Ev.stopOrder s q sp ∈
        (execute_trade mh base S lim eo so co Signal.SELL P a).events →
      sp = price_to_precision lim.priceTick (P * (1 + S)) ∧
        s = Side.buy ∧ q = a) := by
  constructor <;>
  · intro s q sp hmem
    simp only [execute_trade] at hmem
    split at hmem
    · simp only [List.mem_replicate] at hmem
      obtain ⟨-, heq⟩ := hmem
      cases heq
    · split at hmem <;>
      · simp only [List.mem_append, List.mem_replicate] at hmem
        rcases hmem with ⟨-, heq⟩ | hm
        · cases heq
        · exact sl_stop_events mh base lim so co _ a _ s q sp hm

/-- Witness for C9 at the spec scenario: opening a long at price 100 with a
2 percent stop fraction submits the stop at 98. -/
theorem stop_price_formula_witness :
    price_to_precision stdLim.priceTick (100 * (1 - (1/50 : ℚ))) = 98 := by
  have hmem : Ev.stopOrder Side.sell 5 98 ∈
      (execute_trade 3 2 (1/50) stdLim entryOk stopOk noneOracle
        Signal.BUY 100 5).events := by
    norm_num [execute_trade, set_stop_loss_with_safety, execute_order_with_retry,
      retryLoop, entryOk, stopOk, orderA, orderB, price_to_precision, stdLim]
  exact ((stop_price_formula 3 2 (1/50) stdLim entryOk stopOk noneOracle 100 5).1
    Side.sell 5 98 hmem).1.symm

/-- Evaluation for C1 at the failing input: the entry buy of 5 at price 100
succeeds, every stop attempt fails, the emergency order succeeds — yet the
net exchange position afterwards is 10 (the long was doubled, not
flattened), no protective stop is active, and execute_trade reports none,
so the controller records no position. -/
theorem unprotected_position_on_stop_failure_eval :
    (execute_trade 3 2 (1/50) stdLim entryOk noneOracle closeOk
      Signal.BUY 100 5).result = none ∧
    (execute_trade 3 2 (1/50) stdLim entryOk noneOracle closeOk
      Signal.BUY 100 5).stopActive = false ∧
    (execute_trade 3 2 (1/50) stdLim entryOk noneOracle closeOk
      Signal.BUY 100 5).exchangePos = 10 := by
  simp only [execute_trade, set_stop_loss_with_safety, execute_order_with_retry,
    retryLoop, entryOk, closeOk, noneOracle, orderA, orderC, price_to_precision,
    stdLim, signedQty]
  norm_num
  simp only [show (if Side.sell = Side.buy then Side.sell else Side.buy) =
    Side.buy from rfl]
  norm_num

/-- Evaluation for C2 at the failing input: after a buy entry whose stop
placement fails on every attempt, exactly one emergency close request is
issued for the filled quantity 5 — but on side buy, the same side as the
entry, not the opposite side the claim requires; execute_trade still
reports none. -/
theorem emergency_close_same_side_eval :
    (execute_trade 3 2 (1/50) stdLim entryOk noneOracle closeOk
      Signal.BUY 100 5).emergencyCalls = [(Side.buy, 5)] ∧
    (execute_trade 3 2 (1/50) stdLim entryOk noneOracle closeOk
      Signal.BUY 100 5).result = none ∧
    Side.buy ≠ Side.sell := by
  refine ⟨?_, ?_, by simp⟩ <;>
  · simp only [execute_trade, set_stop_loss_with_safety, execute_order_with_retry,
      retryLoop, entryOk, closeOk, noneOracle, orderA, orderC, price_to_precision,
      stdLim, signedQty]
    norm_num

/-- Claim C10: when fetching the live position raises at startup, the
reconciliation returns the flat state and the controller enters its loop
with a flat BotState rather than halting. -/
theorem startup_fetch_failure_flat :
    ∀ symbol : ℕ, fetch_current_position symbol none = flatPositionState ∧
      initialBotState symbol none = flatBot := by
  intro s
  exact ⟨rfl, rfl⟩

/-- Soundness of the rational sign-and-square encoding: for a positive
variance, gtAux decides exactly the real comparison t < d / sqrt v. -/
theorem gtAux_models_gt (d t v : ℚ) (hv : 0 < v) :
    gtAux d t v = true ↔ (t : ℝ) < (d : ℝ) / Real.sqrt (v : ℝ) := by
  have hvR : (0:ℝ) < (v:ℝ) := by exact_mod_cast hv
  have hs : (0:ℝ) < Real.sqrt (v:ℝ) := Real.sqrt_pos.mpr hvR
  have hs2 : Real.sqrt (v:ℝ) ^ 2 = (v:ℝ) := Real.sq_sqrt hvR.le
  have ha2 : ((t:ℝ) * Real.sqrt (v:ℝ)) ^ 2 = (t:ℝ) ^ 2 * (v:ℝ) := by
    rw [mul_pow, hs2]
  rw [lt_div_iff₀ hs]
  unfold gtAux
  by_cases ht : (0:ℚ) ≤ t
  · have htR : (0:ℝ) ≤ (t:ℝ) := by exact_mod_cast ht
    have ha : (0:ℝ) ≤ (t:ℝ) * Real.sqrt (v:ℝ) := mul_nonneg htR hs.le
    rw [if_pos ht]
    simp only [Bool.and_eq_true, decide_eq_true_eq]
    constructor
    · rintro ⟨hd, h2⟩
      have hdR : (0:ℝ) < (d:ℝ) := by exact_mod_cast hd
      have h2R : (t:ℝ) ^ 2 * (v:ℝ) < (d:ℝ) ^ 2 := by exact_mod_cast h2
      by_contra hcon
      push_neg at hcon
      have : (d:ℝ) ^ 2 ≤ ((t:ℝ) * Real.sqrt (v:ℝ)) ^ 2 :=
        pow_le_pow_left₀ hdR.le hcon 2
      rw [ha2] at this
      linarith
    · intro hlt
      have hdR : (0:ℝ) < (d:ℝ) := lt_of_le_of_lt ha hlt
      refine ⟨by exact_mod_cast hdR, ?_⟩
      have h2R : ((t:ℝ) * Real.sqrt (v:ℝ)) ^ 2 < (d:ℝ) ^ 2 :=
        pow_lt_pow_left₀ hlt ha two_ne_zero
      rw [ha2] at h2R
      exact_mod_cast h2R
  · have htR : (t:ℝ) < 0 := by
      have h0 : ¬ (0:ℝ) ≤ (t:ℝ) := by exact_mod_cast ht
      exact lt_of_not_le h0
    have hts : (t:ℝ) * Real.sqrt (v:ℝ) < 0 := mul_neg_of_neg_of_pos htR hs
    rw [if_neg ht]
    simp only [Bool.or_eq_true, decide_eq_true_eq]
    constructor
    · rintro (hd | h2)
      · have hdR : (0:ℝ) ≤ (d:ℝ) := by exact_mod_cast hd
        linarith
      · have h2R : (d:ℝ) ^ 2 < (t:ℝ) ^ 2 * (v:ℝ) := by exact_mod_cast h2
        by_contra hcon
        push_neg at hcon
        have h3 : (0:ℝ) ≤ -((t:ℝ) * Real.sqrt (v:ℝ)) := by linarith
        have h4 : -((t:ℝ) * Real.sqrt (v:ℝ)) ≤ -(d:ℝ) := by linarith
        have h5 : (-((t:ℝ) * Real.sqrt (v:ℝ))) ^ 2 ≤ (-(d:ℝ)) ^ 2 :=
          pow_le_pow_left₀ h3 h4 2
        have h6 : ((t:ℝ) * Real.sqrt (v:ℝ)) ^ 2 ≤ (d:ℝ) ^ 2 := by
          nlinarith [h5]
        rw [ha2] at h6
        linarith
    · intro hlt
      by_cases hd : (0:ℚ) ≤ d
      · exact Or.inl hd
      · refine Or.inr ?_
        have hdR : (d:ℝ) < 0 := by
          have h0 : ¬ (0:ℝ) ≤ (d:ℝ) := by exact_mod_cast hd
          exact lt_of_not_le h0
        have h3 : (0:ℝ) ≤ -(d:ℝ) := by linarith
        have h4 : -(d:ℝ) < -((t:ℝ) * Real.sqrt (v:ℝ)) := by linarith
        have h5 : (-(d:ℝ)) ^ 2 < (-((t:ℝ) * Real.sqrt (v:ℝ))) ^ 2 :=
          pow_lt_pow_left₀ h4 h3 two_ne_zero
        have h6 : (d:ℝ) ^ 2 < ((t:ℝ) * Real.sqrt (v:ℝ)) ^ 2 := by
          nlinarith [h5]
        rw [ha2] at h6
        exact_mod_cast h6

/-- The comparison used for entry and exit signals agrees with the real
z-score comparison from above. -/
theorem zGt_models_gt (d t v : ℚ) (hv : 0 < v) :
    zGt (some (d, v)) t = true ↔ (t : ℝ) < (d : ℝ) / Real.sqrt (v : ℝ) :=
  gtAux_models_gt d t v hv

/-- The comparison used for entry and exit signals agrees with the real
z-score comparison from below. -/
theorem zLt_models_lt (d t v : ℚ) (hv : 0 < v) :
    zLt (some (d, v)) t = true ↔ (d : ℝ) / Real.sqrt (v : ℝ) < (t : ℝ) := by
  show gtAux (-d) (-t) v = true ↔ _
  rw [gtAux_models_gt (-d) (-t) v hv]
  push_cast
  rw [neg_div, neg_lt_neg_iff]

end BotMeanReversion
